import Mathlib

/-!
Verification of napari-imagej (`src/napari_imagej/widget.py`,
`src/napari_imagej/java.py`, and the parameter-to-widget mapping specified in
`tests/types/test_widget_mappings.py`) against its natural-language
specification.

The Python code is shallowly embedded: the Qt tree of search results becomes a
list of groups (title plus ordered children), the process-wide ImageJ future
becomes explicit state passing, raised Python exceptions become `Except`.
-/

namespace NapariImagej

/-! ### Search tree data model (`widget.py`)

A `SearchResult` carries a display name (`result.name()`).
A `SearcherTreeItem` is one top-level group of the `SearchTree`
(`QTreeWidget`): its column-0 text is the searcher's title and its children
are the results currently displayed for that searcher. -/

structure SearchResult where
  name : String
deriving DecidableEq, Repr

structure SearcherTreeItem where
  title : String
  children : List SearchResult
deriving DecidableEq, Repr

/-- The top-level items of the `SearchTree`, in display order. -/
abbrev Tree := List SearcherTreeItem

/-- A `SearchEvent` as consumed by `SearchTree.update`: the emitting
searcher's title and `event.results()`, where `none` models a Java `null`
result list. -/
structure SearchEvent where
  searcherTitle : String
  results : Option (List SearchResult)
deriving DecidableEq, Repr

/-- Embeds `SearchTree._valid_results` (`widget.py` lines 266-278):
`False` for a null result list, `False` for an empty result list, `False`
for a single result named `"<error>"`, `True` otherwise. -/
def _valid_results (results : Option (List SearchResult)) : Bool :=
  match results with
  | none => false
  | some [] => false
  | some [r] => r.name ≠ "<error>"
  | some (_ :: _ :: _) => true

/-- Embeds `SearchTree._add_new_searcher` (`widget.py` lines 250-254):
`addTopLevelItem` appends a fresh `SearcherTreeItem` (no children yet) at the
end of the tree. -/
def _add_new_searcher (tree : Tree) (title : String) : Tree :=
  tree ++ [⟨title, []⟩]

/-- Embeds `SearchTree._get_matching_item` (`widget.py` lines 256-264):
`findItems(name, Qt.MatchExactly, 0)` collects the top-level items whose
column-0 text equals the searcher title; zero matches yield `None`, one match
is returned, more raise `ValueError`. -/
def _get_matching_item (tree : Tree) (title : String) :
    Except String (Option SearcherTreeItem) :=
  let ms := tree.filter (fun item => item.title = title)
  match ms with
  | [] => .ok none
  | [m] => .ok (some m)
  | _ :: _ :: _ =>
    .error ("Multiple Search Result Items matching name " ++ title)

/-- Modelled from the spec: `SearcherTreeItem.update` lives in
`napari_imagej/_helper_widgets.py`, which is not among the provided sources.
Per the spec, an existing group's update "replace[s] its children with the new
results, preserving order as received". -/
def SearcherTreeItem.update (item : SearcherTreeItem)
    (results : List SearchResult) : SearcherTreeItem :=
  { item with children := results }

/-- Lexicographic comparison of character sequences; models Qt's ascending
comparison of the items' column-0 texts. -/
def charListLe : List Char → List Char → Bool
  | [], _ => true
  | _ :: _, [] => false
  | a :: as, b :: bs => if a = b then charListLe as bs else decide (a < b)

/-- Lexicographic "less or equal" on strings (by characters). -/
def strLe (a b : String) : Bool :=
  charListLe a.data b.data

/-- The ordering `QTreeWidget.sortItems(0, Qt.AscendingOrder)` sorts
top-level items by: their titles ascending. -/
def titleLe (a b : SearcherTreeItem) : Prop :=
  strLe a.title b.title = true

instance : DecidableRel titleLe := fun a b =>
  inferInstanceAs (Decidable (_ = true))

/-- `QTreeWidget.sortItems(0, Qt.AscendingOrder)`: sorts the top-level items
by their column-0 text (the searcher title) ascending. -/
def sortItems (tree : Tree) : Tree :=
  tree.insertionSort titleLe

/-- Replace the children of the (unique) group titled `title`; this is the
functional rendering of calling `header.update(results)` on the Qt item
object that `update` holds a reference to. -/
def replaceChildren (tree : Tree) (title : String)
    (results : List SearchResult) : Tree :=
  tree.map (fun g => if g.title = title then g.update results else g)

/-- Embeds `SearchTree.update` (`widget.py` lines 280-296).  Looks up the
group matching the event's searcher title (propagating the `ValueError` of an
ambiguous match); for valid results it creates the group if absent (appending
it, then re-sorting the top-level items by title) and replaces the group's
children with the received results; for invalid results it removes the group
if present and otherwise leaves the tree unchanged. -/
def SearchTree.update (tree : Tree) (event : SearchEvent) :
    Except String Tree := do
  let header ← _get_matching_item tree event.searcherTitle
  if _valid_results event.results then
    match header with
    | none =>
      let tree' := sortItems (_add_new_searcher tree event.searcherTitle)
      return replaceChildren tree' event.searcherTitle
        (event.results.getD [])
    | some _ =>
      return replaceChildren tree event.searcherTitle (event.results.getD [])
  else
    match header with
    | some _ => return tree.eraseP (fun g => g.title = event.searcherTitle)
    | none => return tree

/-- Embeds `SearchTree.first_result` (`widget.py` lines 243-248): scan the
top-level items in order and return the first child of the first one having a
child, `None` when every group is childless. -/
def first_result : Tree → Option SearchResult
  | [] => none
  | g :: rest =>
    match g.children with
    | [] => first_result rest
    | r :: _ => some r

/-- Consume a scripted sequence of events from a starting tree, as the
UI-thread consumer does, one event at a time. -/
def consumeEvents (tree : Tree) (events : List SearchEvent) :
    Except String Tree :=
  events.foldlM SearchTree.update tree

/-- The state invariant of the search tree: top-level groups sorted by title
ascending, with pairwise-distinct titles. -/
def treeInvariant (t : Tree) : Prop :=
  t.Pairwise titleLe ∧ t.Pairwise (fun a b => a.title ≠ b.title)

/-! ### Runtime handle (`java.py`)

`ij_init` lazily submits `_imagej_init` to a one-thread pool and caches the
returned `multiprocessing.pool.AsyncResult` in the module-global `_ij_future`.
The embedding passes that module state explicitly.  `_imagej_init` itself
performs I/O (JVM bootstrap); its eventual outcome is abstracted as an
`Except String Nat` parameter — `Except.ok g` for a successfully constructed
gateway `g`, `Except.error e` for a construction that raised `e`.  Since the
embedding is sequential, the future is resolved at creation time. -/

deriving instance DecidableEq for Except

/-- A `multiprocessing.pool.AsyncResult`: an identity (to express "the same
object is returned") plus the resolved outcome of the submitted call. -/
structure AsyncResult where
  id : Nat
  outcome : Except String Nat
deriving DecidableEq, Repr

/-- `AsyncResult.get()`: blocks until ready, returns the value on success and
re-raises the stored exception on failure (CPython
`multiprocessing/pool.py`). -/
def AsyncResult.get (fut : AsyncResult) : Except String Nat :=
  fut.outcome

/-- `AsyncResult.wait()`: blocks until ready and returns `None`; unlike
`get()` it never re-raises the stored exception (CPython
`multiprocessing/pool.py`). -/
def AsyncResult.wait (_fut : AsyncResult) : Except String Unit :=
  .ok ()

/-- The module-global state of `java.py`: `_ij_future` (initially `None`) and
a count of how many times `_imagej_init` has been submitted for execution. -/
structure JavaState where
  ij_future : Option AsyncResult
  constructions : Nat
deriving DecidableEq, Repr

/-- Module state at import time: `_ij_future = None`, nothing constructed. -/
def initJavaState : JavaState := ⟨none, 0⟩

/-- Embeds `ij_init` (`java.py` lines 82-116): if `_ij_future` is unset,
submit `_imagej_init` to a fresh one-thread pool and store the resulting
`AsyncResult` (the double-checked lock collapses to one check in this
sequential embedding); always return the stored `AsyncResult`. -/
def ij_init (outcome : Except String Nat) (s : JavaState) :
    AsyncResult × JavaState :=
  match s.ij_future with
  | some fut => (fut, s)
  | none =>
    let fut : AsyncResult := ⟨s.constructions, outcome⟩
    (fut, ⟨some fut, s.constructions + 1⟩)

/-- Embeds `ij` (`java.py` lines 32-37): `ij_init().get()`. -/
def ij (outcome : Except String Nat) (s : JavaState) :
    Except String Nat × JavaState :=
  let (fut, s') := ij_init outcome s
  (fut.get, s')

/-- Embeds `ensure_jvm_started` (`java.py` lines 40-44): `ij_init().wait()`. -/
def ensure_jvm_started (outcome : Except String Nat) (s : JavaState) :
    Except String Unit × JavaState :=
  let (fut, s') := ij_init outcome s
  (fut.wait, s')

/-- One call a client may make against `java.py`. -/
inductive JavaCall where
  | init
  | getIJ
  | ensure
deriving DecidableEq, Repr

/-- What one call returned to its caller. -/
inductive JavaRet where
  | futr (fut : AsyncResult)
  | ijRet (r : Except String Nat)
  | ensureRet (r : Except String Unit)
deriving DecidableEq, Repr

/-- Run a sequence of calls against the module state, recording each call's
return value in order. -/
def runJavaCalls (outcome : Except String Nat) :
    List JavaCall → JavaState → List JavaRet × JavaState
  | [], s => ([], s)
  | c :: cs, s =>
    let (ret, s') :=
      match c with
      | .init => let (fut, s') := ij_init outcome s; (JavaRet.futr fut, s')
      | .getIJ => let (r, s') := ij outcome s; (JavaRet.ijRet r, s')
      | .ensure =>
        let (r, s') := ensure_jvm_started outcome s; (JavaRet.ensureRet r, s')
    let (rets, s'') := runJavaCalls outcome cs s'
    (ret :: rets, s'')

/-! ### Focus widget actions (`widget.py`)

`FocusWidget._actions_from_result` asks the SciJava `SearchService` for the
actions it declares on a result (`searchService.actions(result)`), an ordered
list of named runnables; the embedding takes that external list as input.
The observable payload of each produced `SearchAction` is what clicking it
would execute. -/

/-- What a `SearchAction`'s zero-argument callable does when invoked:
`nativeRun`/`nativeWidget` are the host-native closures built by
`_python_actions_for` (`_execute_module` with `modal=True` / `modal=False`),
`javaRun n` is the passthrough wrapper around the external action's `run`
method. -/
inductive ActionEffect where
  | nativeRun
  | nativeWidget
  | javaRun (name : String)
deriving DecidableEq, Repr

/-- Embeds the `SearchAction` named tuple (`widget.py` lines 36-38). -/
structure SearchAction where
  name : String
  action : ActionEffect
deriving DecidableEq, Repr

/-- Embeds `FocusWidget._python_actions_for` (`widget.py` lines 327-356):
the replacement table maps the single key `"Run"` to the two host-native
actions, `"Run"` (modal) then `"Widget"` (non-modal dock). -/
def _python_actions_for : List (String × List SearchAction) :=
  [("Run", [⟨"Run", .nativeRun⟩, ⟨"Widget", .nativeWidget⟩])]

/-- Embeds `FocusWidget._actions_from_result` (`widget.py` lines 366-383):
walk the externally enumerated actions in order; a name present in the
replacement table contributes that table entry (extend), any other name is
appended as a passthrough wrapper around the external action's `run`. -/
def _actions_from_result (externalNames : List String) : List SearchAction :=
  match externalNames with
  | [] => []
  | n :: rest =>
    (match (_python_actions_for.filter (fun p => p.1 = n)).head? with
     | some p => p.2
     | none => [⟨n, .javaRun n⟩]) ++ _actions_from_result rest

/-- Embeds `FocusWidget.run` (`widget.py` lines 315-325): the selection is
`"Widget"` when the shift modifier is held and `"Run"` otherwise; the loop
invokes `action.action()` for every action whose name equals the selection.
The embedding returns the list of effects invoked, in order. -/
def FocusWidget.run (shift : Bool) (externalNames : List String) :
    List ActionEffect :=
  let selection := if shift then "Widget" else "Run"
  ((_actions_from_result externalNames).filter
    (fun a => a.name = selection)).map SearchAction.action

/-! ### Parameter-to-widget mapping (`napari_imagej/types/widget_mappings.py`)

The module under test by `tests/types/test_widget_mappings.py` is not among
the provided sources, so the mapping is modelled from the spec (§4.5, §6) and
from the expectations recorded in that test file. -/

/-- The resolved Python type classification of a module parameter, as far as
the mapping distinguishes it. -/
inductive PType where
  | str
  | int
  | float
  | image
  | file
  | shape
  | other
deriving DecidableEq, Repr

/-- A widget selection returned by the mapping.  `typeDefault t` stands for
the type-only default widget choice magicgui would make for `t`. -/
inductive Widget where
  | Select
  | RadioButtons
  | Slider
  | FloatSlider
  | SpinBox
  | FloatSpinBox
  | OpenFileWidget
  | SaveFileWidget
  | DirectoryWidget
  | ShapeWidget
  | MutableOutputWidget
  | typeDefault (t : PType)
deriving DecidableEq, Repr

/-- The parameter metadata consulted by the mapping: the declared style hint
(`getWidgetStyle`, `none` when absent) and the input/output direction flags
(`DummyModuleItem(isInput=..., isOutput=...)`). -/
structure ModuleItem where
  style : Option String
  isInput : Bool
  isOutput : Bool
deriving DecidableEq, Repr

/-- Modelled from the spec: the recognized textual style vocabulary and its
per-type widgets, as enumerated by `_supported_scijava_styles` and the test
parameterizations (`test_widget_mappings.py` lines 33-41). -/
def _supported_scijava_styles : List (String × List (PType × Widget)) :=
  [ ("listBox", [(.str, .Select)])
  , ("radioButtonHorizontal", [(.str, .RadioButtons)])
  , ("radioButtonVertical", [(.str, .RadioButtons)])
  , ("slider", [(.int, .Slider), (.float, .FloatSlider)])
  , ("spinner", [(.int, .SpinBox), (.float, .FloatSpinBox)])
  ]

/-- Modelled from the spec: the three mutually exclusive path-widget style
constants (`FileWidget.OPEN_STYLE` / `SAVE_STYLE` / `DIRECTORY_STYLE`). -/
def FileWidget_OPEN_STYLE : String := "open"

/-- Modelled from the spec: see `FileWidget_OPEN_STYLE`. -/
def FileWidget_SAVE_STYLE : String := "save"

/-- Modelled from the spec: see `FileWidget_OPEN_STYLE`. -/
def FileWidget_DIRECTORY_STYLE : String := "directory"

/-- All recognized style keywords: the textual vocabulary plus the three
path-widget constants. -/
def recognizedStyles : List String :=
  _supported_scijava_styles.map Prod.fst ++
    [FileWidget_OPEN_STYLE, FileWidget_SAVE_STYLE, FileWidget_DIRECTORY_STYLE]

/-- Modelled from the spec: whether a type is "output-capable numeric/image"
(§4.5: "output-capable numeric/image types lacking a style ⇒ a mutable-output
widget"). -/
def outputCapable : PType → Bool
  | .int => true
  | .float => true
  | .image => true
  | _ => false

/-- Modelled from the spec: the type-only default widget choice, used in the
absence of a style and as the fallback for unrecognized styles; §4.5
special-cases shape/geometry types to the shape-editor widget. -/
def typeOnlyDefault (hint : PType) : Widget :=
  match hint with
  | .shape => .ShapeWidget
  | t => .typeDefault t

/-- Look a textual style and type up in the recognized vocabulary. -/
def lookupStyle (style : String) (hint : PType) : Option Widget :=
  match (_supported_scijava_styles.filter (fun p => p.1 = style)).head? with
  | none => none
  | some p => ((p.2.filter (fun q => q.1 = hint)).head?).map Prod.snd

/-- Modelled from the spec: `preferred_widget_for` of
`napari_imagej/types/widget_mappings.py`, absent from the provided sources.
Per §4.5 it is a pure total function: with no style, an output-capable
numeric/image parameter that is both input and output gets the mutable-output
widget, and otherwise the type-only default applies; with a style, a
file-system path type keyed by one of the three path constants gets the
corresponding picker, a recognized textual style applied to one of its
applicable types gets the documented widget, and any other (unrecognized)
style falls back to the type-only default without raising. -/
def preferred_widget_for (item : ModuleItem) (hint : PType) : Widget :=
  match item.style with
  | none =>
    if item.isInput && item.isOutput && outputCapable hint then
      .MutableOutputWidget
    else typeOnlyDefault hint
  | some style =>
    if hint = .file && style = FileWidget_OPEN_STYLE then .OpenFileWidget
    else if hint = .file && style = FileWidget_SAVE_STYLE then .SaveFileWidget
    else if hint = .file && style = FileWidget_DIRECTORY_STYLE then
      .DirectoryWidget
    else
      match lookupStyle style hint with
      | some w => w
      | none => typeOnlyDefault hint

/-! ### Helper lemmas -/

lemma except_bind_ok {α β ε : Type} (x : α) (f : α → Except ε β) :
    (Except.ok x >>= f : Except ε β) = f x := rfl

lemma except_pure {α ε : Type} (x : α) :
    (pure x : Except ε α) = Except.ok x := rfl

lemma charListLe_total : ∀ as bs, charListLe as bs = true ∨ charListLe bs as = true
  | [], _ => Or.inl rfl
  | _ :: _, [] => Or.inr rfl
  | a :: as, b :: bs => by
    by_cases hab : a = b
    · subst hab
      simpa [charListLe] using charListLe_total as bs
    · rcases lt_or_gt_of_ne hab with h | h
      · left
        simp [charListLe, hab, h]
      · right
        simp [charListLe, Ne.symm hab, h]

lemma charListLe_trans :
    ∀ as bs cs, charListLe as bs = true → charListLe bs cs = true →
      charListLe as cs = true
  | [], _, _, _, _ => rfl
  | _ :: _, [], _, h, _ => by simp [charListLe] at h
  | _ :: _, _ :: _, [], _, h2 => by simp [charListLe] at h2
  | a :: as, b :: bs, c :: cs, h1, h2 => by
    by_cases hab : a = b <;> by_cases hbc : b = c
    · subst hab; subst hbc
      simp only [charListLe, if_pos rfl] at h1 h2 ⊢
      exact charListLe_trans as bs cs h1 h2
    · subst hab
      simp only [charListLe, if_pos rfl] at h1
      simp only [charListLe, if_neg hbc, decide_eq_true_eq] at h2
      simp [charListLe, hbc, h2]
    · subst hbc
      simp only [charListLe, if_neg hab, decide_eq_true_eq] at h1
      simp [charListLe, hab, h1]
    · simp only [charListLe, if_neg hab, decide_eq_true_eq] at h1
      simp only [charListLe, if_neg hbc, decide_eq_true_eq] at h2
      have hac : a < c := lt_trans h1 h2
      simp [charListLe, ne_of_lt hac, hac]

instance : IsTotal SearcherTreeItem titleLe :=
  ⟨fun a b => charListLe_total a.title.data b.title.data⟩

instance : IsTrans SearcherTreeItem titleLe :=
  ⟨fun _ _ _ h1 h2 => charListLe_trans _ _ _ h1 h2⟩

lemma get_matching_item_of_no_match (tree : Tree) (title : String)
    (h : tree.filter (fun g => g.title = title) = []) :
    _get_matching_item tree title = .ok none := by
  simp [_get_matching_item, h]

lemma get_matching_item_of_unique_match (tree : Tree) (title : String)
    (m : SearcherTreeItem) (h : tree.filter (fun g => g.title = title) = [m]) :
    _get_matching_item tree title = .ok (some m) := by
  simp [_get_matching_item, h]

lemma get_matching_item_of_ambiguous (tree : Tree) (title : String)
    (h : 2 ≤ (tree.filter (fun g => g.title = title)).length) :
    _get_matching_item tree title =
      .error ("Multiple Search Result Items matching name " ++ title) := by
  rcases hf : tree.filter (fun g => g.title = title) with _ | ⟨a, _ | ⟨b, rest⟩⟩
  · rw [hf] at h; simp at h
  · rw [hf] at h; simp at h
  · simp [_get_matching_item, hf]

/-- The four branches of `SearchTree.update`, as equations. -/
lemma update_of_no_match_valid (tree : Tree) (event : SearchEvent)
    (hf : tree.filter (fun g => g.title = event.searcherTitle) = [])
    (hv : _valid_results event.results = true) :
    SearchTree.update tree event =
      .ok (replaceChildren (sortItems (_add_new_searcher tree event.searcherTitle))
        event.searcherTitle (event.results.getD [])) := by
  rw [SearchTree.update, get_matching_item_of_no_match tree _ hf, except_bind_ok]
  simp [hv, except_pure]

lemma update_of_match_valid (tree : Tree) (event : SearchEvent)
    (m : SearcherTreeItem)
    (hf : tree.filter (fun g => g.title = event.searcherTitle) = [m])
    (hv : _valid_results event.results = true) :
    SearchTree.update tree event =
      .ok (replaceChildren tree event.searcherTitle (event.results.getD [])) := by
  rw [SearchTree.update, get_matching_item_of_unique_match tree _ m hf,
    except_bind_ok]
  simp [hv, except_pure]

lemma update_of_no_match_invalid (tree : Tree) (event : SearchEvent)
    (hf : tree.filter (fun g => g.title = event.searcherTitle) = [])
    (hv : _valid_results event.results = false) :
    SearchTree.update tree event = .ok tree := by
  rw [SearchTree.update, get_matching_item_of_no_match tree _ hf, except_bind_ok]
  simp [hv, except_pure]

lemma update_of_match_invalid (tree : Tree) (event : SearchEvent)
    (m : SearcherTreeItem)
    (hf : tree.filter (fun g => g.title = event.searcherTitle) = [m])
    (hv : _valid_results event.results = false) :
    SearchTree.update tree event =
      .ok (tree.eraseP (fun g => g.title = event.searcherTitle)) := by
  rw [SearchTree.update, get_matching_item_of_unique_match tree _ m hf,
    except_bind_ok]
  simp [hv, except_pure]

lemma except_bind_error {α β ε : Type} (msg : ε) (f : α → Except ε β) :
    (Except.error msg >>= f : Except ε β) = Except.error msg := rfl

/-- When the filter keeps exactly one element, erasing the first match is the
same as filtering the match out. -/
lemma eraseP_eq_filter_not {α : Type} (p : α → Bool) :
    ∀ (l : List α) (m : α), l.filter p = [m] →
      l.eraseP p = l.filter (fun a => !p a)
  | [], m, h => by simp at h
  | a :: l, m, h => by
    by_cases hpa : p a
    · rw [List.filter_cons_of_pos hpa] at h
      have hfl : l.filter p = [] := (List.cons.injEq _ _ _ _ ▸ h).2
      have hall : ∀ x ∈ l, ¬ p x = true := List.filter_eq_nil_iff.mp hfl
      rw [List.eraseP_cons_of_pos hpa, List.filter_cons_of_neg (by simp [hpa])]
      exact (List.filter_eq_self.mpr (fun x hx => by simp [hall x hx])).symm
    · rw [List.filter_cons_of_neg (by simpa using hpa)] at h
      rw [List.eraseP_cons_of_neg (by simpa using hpa),
        List.filter_cons_of_pos (by simp [hpa])]
      rw [eraseP_eq_filter_not p l m h]

/-- With pairwise-distinct titles, at most one group matches a given title. -/
lemma filter_title_length_le_one (tree : Tree) (t : String)
    (hn : tree.Pairwise (fun a b => a.title ≠ b.title)) :
    (tree.filter (fun g => g.title = t)).length ≤ 1 := by
  induction tree with
  | nil => simp
  | cons a l ih =>
    rcases List.pairwise_cons.mp hn with ⟨ha, hl⟩
    by_cases hat : a.title = t
    · rw [List.filter_cons_of_pos (by simpa using hat)]
      have hfl : l.filter (fun g => g.title = t) = [] := by
        apply List.filter_eq_nil_iff.mpr
        intro g hg
        simp only [decide_eq_true_eq]
        intro hgt
        exact (ha g hg) (hat.trans hgt.symm)
      simp [hfl]
    · rw [List.filter_cons_of_neg (by simpa using hat)]
      exact ih hl

lemma filter_title_cases (tree : Tree) (t : String)
    (hn : tree.Pairwise (fun a b => a.title ≠ b.title)) :
    tree.filter (fun g => g.title = t) = [] ∨
      ∃ m, tree.filter (fun g => g.title = t) = [m] := by
  have h := filter_title_length_le_one tree t hn
  rcases hf : tree.filter (fun g => g.title = t) with _ | ⟨m, _ | ⟨b, rest⟩⟩
  · exact Or.inl hf
  · exact Or.inr ⟨m, hf⟩
  · rw [hf] at h
    simp at h

lemma replaceChildren_entry_title (t : String) (rs : List SearchResult)
    (g : SearcherTreeItem) :
    (if g.title = t then g.update rs else g).title = g.title := by
  by_cases h : g.title = t <;> simp [h, SearcherTreeItem.update]

/-- Mapping a title-preserving function across the tree preserves any
pairwise relation that depends only on titles. -/
lemma pairwise_title_map (R : String → String → Prop) (tree : Tree)
    (f : SearcherTreeItem → SearcherTreeItem)
    (hf : ∀ g, (f g).title = g.title)
    (h : tree.Pairwise (fun a b => R a.title b.title)) :
    (tree.map f).Pairwise (fun a b => R a.title b.title) := by
  refine List.pairwise_map.mpr (h.imp ?_)
  intro a b hab
  simpa [hf] using hab

/-- Creating the group for an unmatched searcher title and filling its
children yields (up to ordering) the old tree plus the one new group. -/
lemma replace_sort_new_perm (tree : Tree) (t : String) (rs : List SearchResult)
    (hf : tree.filter (fun g => g.title = t) = []) :
    (replaceChildren (sortItems (_add_new_searcher tree t)) t rs).Perm
      (tree ++ [⟨t, rs⟩]) := by
  have hne : ∀ g ∈ tree, ¬ g.title = t := fun g hg => by
    simpa using List.filter_eq_nil_iff.mp hf g hg
  have h1 : (replaceChildren (sortItems (_add_new_searcher tree t)) t rs).Perm
      (replaceChildren (_add_new_searcher tree t) t rs) :=
    (List.perm_insertionSort titleLe _).map _
  have h2 : replaceChildren (_add_new_searcher tree t) t rs =
      tree ++ [⟨t, rs⟩] := by
    unfold replaceChildren _add_new_searcher
    rw [List.map_append]
    congr 1
    · rw [List.map_congr_left (fun g hg => if_neg (hne g hg))]
      exact List.map_id' tree
    · simp [SearcherTreeItem.update]
  exact h1.trans (h2 ▸ List.Perm.refl _)

lemma treeInvariant_nil : treeInvariant [] :=
  ⟨List.Pairwise.nil, List.Pairwise.nil⟩

lemma update_preserves_invariant (tree : Tree) (event : SearchEvent)
    (tree' : Tree) (h : SearchTree.update tree event = .ok tree')
    (hinv : treeInvariant tree) : treeInvariant tree' := by
  rcases hinv with ⟨hsorted, hnodup⟩
  rcases filter_title_cases tree event.searcherTitle hnodup with hf | ⟨m, hf⟩
  · by_cases hv : _valid_results event.results
    · rw [update_of_no_match_valid tree event hf hv] at h
      cases h
      have hne : ∀ g ∈ tree, ¬ g.title = event.searcherTitle := fun g hg => by
        simpa using List.filter_eq_nil_iff.mp hf g hg
      constructor
      · -- sorted: insertionSort sorts, the map preserves titles
        exact pairwise_title_map (fun x y => strLe x y = true) _ _
          (replaceChildren_entry_title _ _)
          (List.sorted_insertionSort titleLe _)
      · -- distinct titles: appended title is fresh, permutation and map keep it
        have happ : (_add_new_searcher tree event.searcherTitle).Pairwise
            (fun a b => a.title ≠ b.title) := by
          rw [_add_new_searcher, List.pairwise_append]
          exact ⟨hnodup, List.pairwise_singleton _ _,
            fun a ha b hb => by
              rcases List.mem_singleton.mp hb with rfl
              exact hne a ha⟩
        have hperm : (sortItems (_add_new_searcher tree event.searcherTitle)).Pairwise
            (fun a b => a.title ≠ b.title) :=
          (List.Perm.pairwise_iff (fun hxy => Ne.symm hxy)
            (List.perm_insertionSort titleLe _)).mpr happ
        exact pairwise_title_map (fun x y => x ≠ y) _ _
          (replaceChildren_entry_title _ _) hperm
    · rw [update_of_no_match_invalid tree event hf
        (Bool.eq_false_iff.mpr (by simpa using hv))] at h
      cases h
      exact ⟨hsorted, hnodup⟩
  · by_cases hv : _valid_results event.results
    · rw [update_of_match_valid tree event m hf hv] at h
      cases h
      exact ⟨pairwise_title_map (fun x y => strLe x y = true) _ _
          (replaceChildren_entry_title _ _) hsorted,
        pairwise_title_map (fun x y => x ≠ y) _ _
          (replaceChildren_entry_title _ _) hnodup⟩
    · rw [update_of_match_invalid tree event m hf
        (Bool.eq_false_iff.mpr (by simpa using hv))] at h
      cases h
      exact ⟨hsorted.sublist (List.eraseP_sublist tree),
        hnodup.sublist (List.eraseP_sublist tree)⟩

lemma consume_preserves_invariant (events : List SearchEvent) :
    ∀ (tree tree' : Tree), consumeEvents tree events = .ok tree' →
      treeInvariant tree → treeInvariant tree' := by
  induction events with
  | nil =>
    intro tree tree' h hinv
    have : tree = tree' := by simpa [consumeEvents, List.foldlM, except_pure] using h
    exact this ▸ hinv
  | cons e es ih =>
    intro tree tree' h hinv
    simp only [consumeEvents, List.foldlM] at h
    rcases hup : SearchTree.update tree e with msg | t1
    · rw [hup, except_bind_error] at h
      exact absurd h (by simp)
    · rw [hup, except_bind_ok] at h
      exact ih t1 tree' (by simpa [consumeEvents] using h)
        (update_preserves_invariant tree e t1 hup hinv)

/-- The reachable-state invariant of `java.py`: starting from the initial
module state (or the state right after the single construction), every call
returns the one `AsyncResult` `⟨0, outcome⟩`, `ij()` returns `outcome`
itself, `ensure_jvm_started()` returns unit, and the state stays within the
two reachable states. -/
lemma runJavaCalls_spec (outcome : Except String Nat)
    (calls : List JavaCall) :
    ∀ s : JavaState, s = initJavaState ∨ s = ⟨some ⟨0, outcome⟩, 1⟩ →
      ((runJavaCalls outcome calls s).2 = s ∨
        (runJavaCalls outcome calls s).2 = ⟨some ⟨0, outcome⟩, 1⟩) ∧
      (∀ fut, JavaRet.futr fut ∈ (runJavaCalls outcome calls s).1 →
        fut = ⟨0, outcome⟩) ∧
      (∀ r, JavaRet.ijRet r ∈ (runJavaCalls outcome calls s).1 →
        r = outcome) ∧
      (∀ u, JavaRet.ensureRet u ∈ (runJavaCalls outcome calls s).1 →
        u = .ok ()) := by
  induction calls with
  | nil =>
    intro s _
    exact ⟨Or.inl rfl, by simp [runJavaCalls], by simp [runJavaCalls],
      by simp [runJavaCalls]⟩
  | cons c cs ih =>
    intro s hs
    have hij : ij_init outcome s = (⟨0, outcome⟩, ⟨some ⟨0, outcome⟩, 1⟩) := by
      rcases hs with rfl | rfl <;> rfl
    have hrec := ih ⟨some ⟨0, outcome⟩, 1⟩ (Or.inr rfl)
    cases c with
    | init =>
      simp only [runJavaCalls, hij]
      refine ⟨Or.inr (hrec.1.elim (fun h => h) (fun h => h)), ?_, ?_, ?_⟩
      · intro fut hfut
        rcases List.mem_cons.mp hfut with h | h
        · injection h with h'
        · exact hrec.2.1 fut h
      · intro r hr
        rcases List.mem_cons.mp hr with h | h
        · cases h
        · exact hrec.2.2.1 r h
      · intro u hu
        rcases List.mem_cons.mp hu with h | h
        · cases h
        · exact hrec.2.2.2 u h
    | getIJ =>
      simp only [runJavaCalls, ij, hij, AsyncResult.get]
      refine ⟨Or.inr (hrec.1.elim (fun h => h) (fun h => h)), ?_, ?_, ?_⟩
      · intro fut hfut
        rcases List.mem_cons.mp hfut with h | h
        · cases h
        · exact hrec.2.1 fut h
      · intro r hr
        rcases List.mem_cons.mp hr with h | h
        · injection h with h'
        · exact hrec.2.2.1 r h
      · intro u hu
        rcases List.mem_cons.mp hu with h | h
        · cases h
        · exact hrec.2.2.2 u h
    | ensure =>
      simp only [runJavaCalls, ensure_jvm_started, hij, AsyncResult.wait]
      refine ⟨Or.inr (hrec.1.elim (fun h => h) (fun h => h)), ?_, ?_, ?_⟩
      · intro fut hfut
        rcases List.mem_cons.mp hfut with h | h
        · cases h
        · exact hrec.2.1 fut h
      · intro r hr
        rcases List.mem_cons.mp hr with h | h
        · cases h
        · exact hrec.2.2.1 r h
      · intro u hu
        rcases List.mem_cons.mp hu with h | h
        · injection h with h'
        · exact hrec.2.2.2 u h

/-- A title absent from a list of names filters to the empty list. -/
lemma filter_eq_nil_of_not_mem (names : List String) (sel : String)
    (h : sel ∉ names) : names.filter (fun n => n = sel) = [] := by
  induction names with
  | nil => rfl
  | cons n rest ih =>
    have hn : ¬ (n = sel) := fun hh => h (hh ▸ List.mem_cons_self n rest)
    rw [List.filter_cons_of_neg (by simpa using hn)]
    exact ih (fun hh => h (List.mem_cons_of_mem n hh))

lemma actions_from_result_cons_run (rest : List String) :
    _actions_from_result ("Run" :: rest) =
      ⟨"Run", .nativeRun⟩ :: ⟨"Widget", .nativeWidget⟩ ::
        _actions_from_result rest := by
  simp [_actions_from_result, _python_actions_for]

lemma actions_from_result_cons_other (n : String) (rest : List String)
    (hn : n ≠ "Run") :
    _actions_from_result (n :: rest) =
      ⟨n, .javaRun n⟩ :: _actions_from_result rest := by
  simp [_actions_from_result, _python_actions_for, Ne.symm hn]

/-- With no external action named "Run", every produced action is the
passthrough wrapper of the external action of the same name. -/
lemma actions_from_result_no_run (names : List String)
    (h : "Run" ∉ names) :
    _actions_from_result names =
      names.map (fun n => (⟨n, .javaRun n⟩ : SearchAction)) := by
  induction names with
  | nil => rfl
  | cons n rest ih =>
    have hn : n ≠ "Run" := fun hh => h (hh ▸ List.mem_cons_self n rest)
    rw [actions_from_result_cons_other n rest hn, List.map_cons,
      ih (fun hh => h (List.mem_cons_of_mem n hh))]

lemma filter_map_wrapper (names : List String) (sel : String) :
    ((names.map (fun n => (⟨n, .javaRun n⟩ : SearchAction))).filter
        (fun a => a.name = sel)).map SearchAction.action =
      (names.filter (fun n => n = sel)).map ActionEffect.javaRun := by
  induction names with
  | nil => rfl
  | cons n rest ih =>
    by_cases hn : n = sel <;> simp [List.filter_cons, hn, ih]

lemma run_cons_other (shift : Bool) (n : String) (rest : List String)
    (h1 : n ≠ "Run") (h2 : n ≠ "Widget") :
    FocusWidget.run shift (n :: rest) = FocusWidget.run shift rest := by
  cases shift <;>
    simp [FocusWidget.run, actions_from_result_cons_other n rest h1,
      List.filter_cons, h1, h2]

/-! ### The claims -/

/-- C1: `SearchTree.update` follows the validity rule: results are invalid
exactly when the sequence is null, empty, or a single element named
`"<error>"`; if valid and no group matches the searcher's title, a new group
holding exactly the received results is created (the other groups are kept);
if valid and a group exists, its children are replaced — not appended — by
the new results in received order; if invalid and a group exists, the group
is removed; if invalid and no group exists, the tree is unchanged. -/
theorem update_follows_validity_rule (tree : Tree) (event : SearchEvent) :
    (_valid_results event.results = false ↔
      event.results = none ∨ event.results = some [] ∨
        ∃ r, event.results = some [r] ∧ r.name = "<error>") ∧
    (tree.filter (fun g => g.title = event.searcherTitle) = [] →
      (_valid_results event.results = false →
        SearchTree.update tree event = .ok tree) ∧
      (_valid_results event.results = true →
        ∃ tree', SearchTree.update tree event = .ok tree' ∧
          tree'.Perm
            (tree ++ [⟨event.searcherTitle, event.results.getD []⟩]))) ∧
    (∀ m, tree.filter (fun g => g.title = event.searcherTitle) = [m] →
      (_valid_results event.results = false →
        SearchTree.update tree event =
          .ok (tree.filter (fun g => g.title ≠ event.searcherTitle))) ∧
      (_valid_results event.results = true →
        SearchTree.update tree event =
          .ok (tree.map (fun g =>
            if g.title = event.searcherTitle
            then { g with children := event.results.getD [] } else g)))) := by
  refine ⟨?_, ?_, ?_⟩
  · rcases event.results with _ | ⟨_ | ⟨r, _ | ⟨r2, rest⟩⟩⟩ <;>
      simp [_valid_results]
  · intro hf
    refine ⟨fun hv => update_of_no_match_invalid tree event hf hv, fun hv => ?_⟩
    exact ⟨_, update_of_no_match_valid tree event hf hv,
      replace_sort_new_perm tree event.searcherTitle (event.results.getD []) hf⟩
  · intro m hf
    constructor
    · intro hv
      rw [update_of_match_invalid tree event m hf hv,
        eraseP_eq_filter_not _ tree m hf]
      simp
    · intro hv
      rw [update_of_match_valid tree event m hf hv]
      rfl

/-- Witness for C1: delivering `(SearcherA, [r1])` then `(SearcherA, [r2,
r3])` replaces the group's children with `[r2, r3]` (not an append). -/
theorem update_follows_validity_rule_witness :
    SearchTree.update [⟨"SearcherA", [⟨"r1"⟩]⟩]
        ⟨"SearcherA", some [⟨"r2"⟩, ⟨"r3"⟩]⟩ =
      .ok [⟨"SearcherA", [⟨"r2"⟩, ⟨"r3"⟩]⟩] :=
  (((update_follows_validity_rule [⟨"SearcherA", [⟨"r1"⟩]⟩]
      ⟨"SearcherA", some [⟨"r2"⟩, ⟨"r3"⟩]⟩).2.2 ⟨"SearcherA", [⟨"r1"⟩]⟩
      (by decide)).2 (by decide)).trans (by decide)

/-- C2: over any sequence of `ij_init()` calls (also the ones made through
`ij()` and `ensure_jvm_started()`), `_imagej_init` is submitted for execution
at most once, and every `ij_init()` call returns the same `AsyncResult` as
the first call. -/
theorem ij_init_constructs_once (outcome : Except String Nat)
    (calls : List JavaCall) :
    (runJavaCalls outcome calls initJavaState).2.constructions ≤ 1 ∧
    ∀ fut, JavaRet.futr fut ∈ (runJavaCalls outcome calls initJavaState).1 →
      fut = ⟨0, outcome⟩ := by
  have h := runJavaCalls_spec outcome calls initJavaState (Or.inl rfl)
  refine ⟨?_, h.2.1⟩
  rcases h.1 with h1 | h1 <;> rw [h1] <;> simp [initJavaState]

/-- Witness for C2: two `ij_init()` calls both return the `AsyncResult`
created by the first call. -/
theorem ij_init_constructs_once_witness :
    JavaRet.futr ⟨0, Except.ok 7⟩ ∈
      (runJavaCalls (Except.ok 7) [JavaCall.init, JavaCall.init]
        initJavaState).1 ∧
    (⟨0, Except.ok 7⟩ : AsyncResult) = ⟨0, Except.ok 7⟩ :=
  ⟨by decide,
    (ij_init_constructs_once (Except.ok 7) [JavaCall.init, JavaCall.init]).2
      ⟨0, Except.ok 7⟩ (by decide)⟩

/-- C3 counterexample: with a failed construction, a caller of
`ensure_jvm_started()` does not observe the failure — `AsyncResult.wait()`
returns without re-raising, so the call returns normally instead of
propagating the error. -/
theorem ensure_jvm_started_failure_counterexample :
    (ensure_jvm_started (Except.error "boom") initJavaState).1 =
      Except.ok () ∧
    (ensure_jvm_started (Except.error "boom") initJavaState).1 ≠
      Except.error "boom" := by
  decide

/-- C3 (amended): if `_imagej_init` fails, the failure is not retried — no
later call starts a second construction attempt — and every caller of `ij()`
observes the same failure from the shared future, while every caller of
`ensure_jvm_started()` merely unblocks, returning without raising. -/
theorem construction_failure_not_retried (e : String)
    (calls : List JavaCall) :
    (runJavaCalls (.error e) calls initJavaState).2.constructions ≤ 1 ∧
    (∀ r, JavaRet.ijRet r ∈
        (runJavaCalls (.error e) calls initJavaState).1 → r = .error e) ∧
    (∀ u, JavaRet.ensureRet u ∈
        (runJavaCalls (.error e) calls initJavaState).1 → u = .ok ()) := by
  have h := runJavaCalls_spec (.error e) calls initJavaState (Or.inl rfl)
  refine ⟨?_, fun r hr => h.2.2.1 r hr, fun u hu => h.2.2.2 u hu⟩
  rcases h.1 with h1 | h1 <;> rw [h1] <;> simp [initJavaState]

/-- Witness for C3 (amended): a concrete `ij()` call after a failed
construction observes that same failure. -/
theorem construction_failure_not_retried_witness :
    JavaRet.ijRet (Except.error "boom") ∈
      (runJavaCalls (Except.error "boom") [JavaCall.getIJ]
        initJavaState).1 ∧
    (Except.error "boom" : Except String Nat) = Except.error "boom" :=
  ⟨by decide,
    (construction_failure_not_retried "boom" [JavaCall.getIJ]).2.1
      (Except.error "boom") (by decide)⟩

/-- C4: `first_result()` returns the first child of the first top-level
group (in current tree order) that has at least one child, and returns none
when no group has any children — in particular on the empty tree. -/
theorem first_result_first_nonempty_group :
    (first_result [] = none) ∧
    (∀ t : Tree, (∀ g ∈ t, g.children = []) → first_result t = none) ∧
    (∀ (pre post : Tree) (g : SearcherTreeItem) (r : SearchResult)
        (rs : List SearchResult),
      (∀ g' ∈ pre, g'.children = []) → g.children = r :: rs →
      first_result (pre ++ g :: post) = some r) := by
  refine ⟨rfl, ?_, ?_⟩
  · intro t h
    induction t with
    | nil => rfl
    | cons g rest ih =>
      have hg : g.children = [] := h g (List.mem_cons_self g rest)
      rw [first_result, hg]
      exact ih (fun g' hg' => h g' (List.mem_cons_of_mem g hg'))
  · intro pre post g r rs hpre hg
    induction pre with
    | nil => simp [first_result, hg]
    | cons p ps ih =>
      have hp : p.children = [] := hpre p (List.mem_cons_self p ps)
      rw [List.cons_append, first_result, hp]
      exact ih (fun g' h' => hpre g' (List.mem_cons_of_mem p h'))

/-- Witness for C4: with groups `[A: [], B: [r1]]` the first result is
`r1`. -/
theorem first_result_first_nonempty_group_witness :
    first_result [⟨"A", []⟩, ⟨"B", [⟨"r1"⟩]⟩] = some ⟨"r1"⟩ :=
  first_result_first_nonempty_group.2.2 [⟨"A", []⟩] [] ⟨"B", [⟨"r1"⟩]⟩
    ⟨"r1"⟩ [] (by decide) rfl

/-- C5: after every consumed event sequence the top-level groups are ordered
by title ascending (`titleLe`, the lexicographic order on the titles); in
particular delivering valid results for two distinct searchers, in either
order, yields exactly two groups sorted by title ascending. -/
theorem groups_sorted_by_title :
    (∀ (events : List SearchEvent) (tree : Tree),
      consumeEvents [] events = .ok tree → tree.Pairwise titleLe) ∧
    (∀ (t1 t2 : String) (rs1 rs2 : List SearchResult), t1 ≠ t2 →
      _valid_results (some rs1) = true → _valid_results (some rs2) = true →
      ∃ tree, consumeEvents [] [⟨t1, some rs1⟩, ⟨t2, some rs2⟩] = .ok tree ∧
        tree.length = 2 ∧ tree.Pairwise titleLe ∧
        (tree.map SearcherTreeItem.title).Perm [t1, t2]) := by
  constructor
  · intro events tree h
    exact (consume_preserves_invariant events [] tree h treeInvariant_nil).1
  · intro t1 t2 rs1 rs2 hne hv1 hv2
    have hf1 : ([] : Tree).filter (fun g => g.title = t1) = [] := rfl
    have hp1 := replace_sort_new_perm [] t1 rs1 hf1
    have e1 : replaceChildren (sortItems (_add_new_searcher [] t1)) t1 rs1 =
        [⟨t1, rs1⟩] := List.perm_singleton.mp (by simpa using hp1)
    have h1 : SearchTree.update [] ⟨t1, some rs1⟩ = .ok [⟨t1, rs1⟩] :=
      (update_of_no_match_valid [] ⟨t1, some rs1⟩ hf1 hv1).trans
        (congrArg Except.ok e1)
    have hf2 : ([⟨t1, rs1⟩] : Tree).filter (fun g => g.title = t2) = [] := by
      simp [List.filter_cons, hne]
    have h2 : SearchTree.update [⟨t1, rs1⟩] ⟨t2, some rs2⟩ =
        .ok (replaceChildren (sortItems (_add_new_searcher [⟨t1, rs1⟩] t2))
          t2 rs2) :=
      update_of_no_match_valid [⟨t1, rs1⟩] ⟨t2, some rs2⟩ hf2 hv2
    have hp2 := replace_sort_new_perm [⟨t1, rs1⟩] t2 rs2 hf2
    refine ⟨replaceChildren (sortItems (_add_new_searcher [⟨t1, rs1⟩] t2))
      t2 rs2, ?_, ?_, ?_, ?_⟩
    · simp only [consumeEvents, List.foldlM]
      rw [h1, except_bind_ok, h2, except_bind_ok, except_pure]
    · simpa using hp2.length_eq
    · have hc : consumeEvents [] [⟨t1, some rs1⟩, ⟨t2, some rs2⟩] =
          .ok (replaceChildren (sortItems (_add_new_searcher [⟨t1, rs1⟩] t2))
            t2 rs2) := by
        simp only [consumeEvents, List.foldlM]
        rw [h1, except_bind_ok, h2, except_bind_ok, except_pure]
      exact (consume_preserves_invariant _ [] _ hc treeInvariant_nil).1
    · have := hp2.map SearcherTreeItem.title
      simpa using this

/-- Witness for C5: two searchers delivered in descending title order come
out as two groups sorted ascending. -/
theorem groups_sorted_by_title_witness :
    List.Pairwise titleLe
      [(⟨"A", [⟨"r2"⟩]⟩ : SearcherTreeItem), ⟨"B", [⟨"r1"⟩]⟩] :=
  groups_sorted_by_title.1 [⟨"B", some [⟨"r1"⟩]⟩, ⟨"A", some [⟨"r2"⟩]⟩]
    [⟨"A", [⟨"r2"⟩]⟩, ⟨"B", [⟨"r1"⟩]⟩] (by decide)

/-- C6: `_get_matching_item` returns none on zero title matches, the unique
matching group on one match, and raises `ValueError` on two or more
matches. -/
theorem get_matching_item_ambiguity (tree : Tree) (title : String) :
    ((tree.filter (fun g => g.title = title)).length = 0 →
      _get_matching_item tree title = .ok none) ∧
    (∀ m, tree.filter (fun g => g.title = title) = [m] →
      _get_matching_item tree title = .ok (some m)) ∧
    (2 ≤ (tree.filter (fun g => g.title = title)).length →
      _get_matching_item tree title =
        .error ("Multiple Search Result Items matching name " ++ title)) :=
  ⟨fun h0 =>
      get_matching_item_of_no_match tree title (List.length_eq_zero.mp h0),
    fun m hm => get_matching_item_of_unique_match tree title m hm,
    fun h2 => get_matching_item_of_ambiguous tree title h2⟩

/-- Witness for C6: two groups with the same title make the lookup raise. -/
theorem get_matching_item_ambiguity_witness :
    _get_matching_item [⟨"A", []⟩, ⟨"A", []⟩] "A" =
      .error ("Multiple Search Result Items matching name " ++ "A") :=
  (get_matching_item_ambiguity [⟨"A", []⟩, ⟨"A", []⟩] "A").2.2 (by decide)

/-- C7: for an external action list `["Run", X]` with `X` unknown, the
resolver substitutes the two host-native actions ("Run" modal, "Widget"
non-modal) in place of the external "Run", keeping its position, and passes
`X` through unchanged as a wrapper around the external action's run method —
three actions in total. -/
theorem actions_substitution (x : String) (hx : x ≠ "Run") :
    _actions_from_result ["Run", x] =
      [⟨"Run", .nativeRun⟩, ⟨"Widget", .nativeWidget⟩, ⟨x, .javaRun x⟩] ∧
    (_actions_from_result ["Run", x]).length = 3 := by
  have h : _actions_from_result ["Run", x] =
      [⟨"Run", .nativeRun⟩, ⟨"Widget", .nativeWidget⟩, ⟨x, .javaRun x⟩] := by
    rw [actions_from_result_cons_run, actions_from_result_cons_other x [] hx]
    rfl
  exact ⟨h, by rw [h]; rfl⟩

/-- Witness for C7: the external list `["Run", "Help"]`. -/
theorem actions_substitution_witness :
    _actions_from_result ["Run", "Help"] =
      [⟨"Run", .nativeRun⟩, ⟨"Widget", .nativeWidget⟩,
        ⟨"Help", .javaRun "Help"⟩] :=
  (actions_substitution "Help" (by decide)).1

/-- C8 counterexample: `FocusWidget.run` does not always trigger exactly one
host-native execution — with an empty external action list, no action at all
is triggered, with or without the shift modifier. -/
theorem run_exactly_one_counterexample :
    FocusWidget.run false [] = [] ∧ FocusWidget.run true [] = [] := by
  decide

/-- C8 (amended): when the external action list contains exactly one action
named "Run" and none named "Widget", each `FocusWidget.run` invocation
triggers exactly one host-native execution, chosen by the keyboard modifier:
the non-modal "Widget" action when shift is held, the modal "Run" action
otherwise. -/
theorem run_modifier_selects_native (shift : Bool) :
    ∀ externalNames : List String,
      externalNames.count "Run" = 1 → "Widget" ∉ externalNames →
      FocusWidget.run shift externalNames =
        [if shift then ActionEffect.nativeWidget else ActionEffect.nativeRun]
    := by
  intro names
  induction names with
  | nil => intro h _; simp at h
  | cons n rest ih =>
    intro hcount hw
    have hwn : n ≠ "Widget" := fun hh => hw (hh ▸ List.mem_cons_self n rest)
    have hwrest : "Widget" ∉ rest := fun hh => hw (List.mem_cons_of_mem n hh)
    by_cases hn : n = "Run"
    · subst hn
      have hrest : rest.count "Run" = 0 := by
        simpa [List.count_cons] using hcount
      have hnotin : "Run" ∉ rest := by
        simpa using List.count_eq_zero.mp hrest
      have hmap := actions_from_result_no_run rest hnotin
      cases shift
      · simp [FocusWidget.run, actions_from_result_cons_run, hmap,
          List.filter_cons, filter_map_wrapper,
          filter_eq_nil_of_not_mem rest "Run" hnotin]
      · simp [FocusWidget.run, actions_from_result_cons_run, hmap,
          List.filter_cons, filter_map_wrapper,
          filter_eq_nil_of_not_mem rest "Widget" hwrest]
    · have hrest : rest.count "Run" = 1 := by
        simpa [List.count_cons, hn] using hcount
      rw [run_cons_other shift n rest hn hwn]
      exact ih hrest hwrest

/-- Witness for C8 (amended): external list `["Run", "Help"]`, no shift:
only the modal host-native "Run" is triggered. -/
theorem run_modifier_selects_native_witness :
    FocusWidget.run false ["Run", "Help"] = [ActionEffect.nativeRun] :=
  (run_modifier_selects_native false ["Run", "Help"] (by decide)
    (by decide)).trans (by decide)

/-- C9: the parameter-to-widget mapping is total: every recognized style
crossed with its applicable types yields the documented widget; an
unrecognized style yields the type-only default without raising; and a
parameter with no style whose type is output-capable numeric/image yields
the mutable-output widget. -/
theorem preferred_widget_total :
    (preferred_widget_for ⟨some "listBox", true, false⟩ .str = .Select ∧
     preferred_widget_for ⟨some "radioButtonHorizontal", true, false⟩ .str =
       .RadioButtons ∧
     preferred_widget_for ⟨some "radioButtonVertical", true, false⟩ .str =
       .RadioButtons ∧
     preferred_widget_for ⟨some "slider", true, false⟩ .int = .Slider ∧
     preferred_widget_for ⟨some "slider", true, false⟩ .float =
       .FloatSlider ∧
     preferred_widget_for ⟨some "spinner", true, false⟩ .int = .SpinBox ∧
     preferred_widget_for ⟨some "spinner", true, false⟩ .float =
       .FloatSpinBox ∧
     preferred_widget_for ⟨some FileWidget_OPEN_STYLE, true, false⟩ .file =
       .OpenFileWidget ∧
     preferred_widget_for ⟨some FileWidget_SAVE_STYLE, true, false⟩ .file =
       .SaveFileWidget ∧
     preferred_widget_for ⟨some FileWidget_DIRECTORY_STYLE, true, false⟩
       .file = .DirectoryWidget) ∧
    (∀ (s : String) (inp outp : Bool) (hint : PType),
      s ∉ recognizedStyles →
      preferred_widget_for ⟨some s, inp, outp⟩ hint = typeOnlyDefault hint) ∧
    (∀ hint : PType, outputCapable hint = true →
      preferred_widget_for ⟨none, true, true⟩ hint = .MutableOutputWidget) := by
  refine ⟨by decide, ?_, ?_⟩
  · intro s inp outp hint hs
    simp only [recognizedStyles, _supported_scijava_styles,
      FileWidget_OPEN_STYLE, FileWidget_SAVE_STYLE, FileWidget_DIRECTORY_STYLE,
      List.map_cons, List.map_nil, List.cons_append, List.nil_append,
      List.mem_cons, List.not_mem_nil, or_false, not_or] at hs
    obtain ⟨h1, h2, h3, h4, h5, h6, h7, h8⟩ := hs
    simp [preferred_widget_for, lookupStyle, _supported_scijava_styles,
      FileWidget_OPEN_STYLE, FileWidget_SAVE_STYLE, FileWidget_DIRECTORY_STYLE,
      h6, h7, h8, Ne.symm h1, Ne.symm h2, Ne.symm h3, Ne.symm h4, Ne.symm h5]
  · intro hint h
    simp [preferred_widget_for, h]

/-- Witness for C9: an unrecognized style falls back to the type-only
default, and a styleless mutable image parameter gets the mutable-output
widget. -/
theorem preferred_widget_total_witness :
    preferred_widget_for ⟨some "fancyStyle", true, false⟩ .str =
      typeOnlyDefault .str ∧
    preferred_widget_for ⟨none, true, true⟩ .image = .MutableOutputWidget :=
  ⟨preferred_widget_total.2.1 "fancyStyle" true false .str (by decide),
    preferred_widget_total.2.2 .image (by decide)⟩

/-- C10 counterexample: with no external "Run" action, `FocusWidget.run` can
still invoke an action — a passthrough external action literally named
"Widget" is invoked when shift is held. -/
theorem no_run_no_action_counterexample :
    "Run" ∉ (["Widget"] : List String) ∧
    FocusWidget.run true ["Widget"] = [ActionEffect.javaRun "Widget"] := by
  decide

/-- C10 (amended): if the external action list contains no action named
"Run", the resolver output contains no host-native action (every action is
the passthrough wrapper of its external action); consequently
`FocusWidget.run` without shift invokes no action at all, and with shift it
invokes exactly the passthrough wrappers of external actions named
"Widget". -/
theorem no_native_actions_without_run (externalNames : List String)
    (h : "Run" ∉ externalNames) :
    (∀ a ∈ _actions_from_result externalNames,
      a.action = ActionEffect.javaRun a.name) ∧
    FocusWidget.run false externalNames = [] ∧
    FocusWidget.run true externalNames =
      (externalNames.filter (fun n => n = "Widget")).map
        ActionEffect.javaRun := by
  have hmap := actions_from_result_no_run externalNames h
  refine ⟨?_, ?_, ?_⟩
  · intro a ha
    rw [hmap] at ha
    rcases List.mem_map.mp ha with ⟨n, _, rfl⟩
    rfl
  · simp [FocusWidget.run, hmap, filter_map_wrapper,
      filter_eq_nil_of_not_mem externalNames "Run" h]
  · simp [FocusWidget.run, hmap, filter_map_wrapper]

/-- Witness for C10 (amended): external list `["Help", "Source"]` with no
shift invokes nothing. -/
theorem no_native_actions_without_run_witness :
    FocusWidget.run false ["Help", "Source"] = [] :=
  (no_native_actions_without_run ["Help", "Source"] (by decide)).2.1

end NapariImagej
